import Mathlib

/-!
Verification development for the vue-api-kit client factory
(`createApiClient` and its helpers): a shallow embedding of the
request-lifecycle engine — multipart body encoding, path-template
resolution, the before-request hook chain, CSRF single-flight refresh,
error classification, validation-message formatting, the definition-tree
walk, and `deepMerge` — together with theorems settling the spec claims.
-/

set_option autoImplicit false

namespace VueApiKit

/-! ## JavaScript value model

A JSON-like value universe covering the runtime values the client
manipulates: strings, numbers, booleans, `null`, `undefined`, binary
`File`/`Blob` objects (identified by name), arrays, and plain objects
(modelled as association lists in insertion order, keys unique). -/

inductive JSVal where
  | str (s : String)
  | num (n : Int)
  | bool (b : Bool)
  | null
  | undef
  | file (name : String)
  | arr (items : List JSVal)
  | obj (fields : List (String × JSVal))

/-- JavaScript truthiness for our value universe: `false`, `0`, `""`,
`null` and `undefined` are falsy; every object (including empty arrays
and objects, and files) is truthy. -/
def jsTruthy : JSVal → Bool
  | .str s => !(s = "")
  | .num n => !(n = 0)
  | .bool b => b
  | .null => false
  | .undef => false
  | .file _ => true
  | .arr _ => true
  | .obj _ => true

/-- JSON string quoting as performed by `JSON.stringify` on a string
value: wrap in double quotes, escaping backslash and double quote
(the inputs used here contain no control characters). -/
def jsonQuote (s : String) : String :=
  "\"" ++ String.mk (s.data.foldr (fun c acc =>
    if c = '"' then '\\' :: '"' :: acc
    else if c = '\\' then '\\' :: '\\' :: acc
    else c :: acc) []) ++ "\""

mutual

/-- Model of `JSON.stringify`: `none` when the argument is `undefined`
or a bare function-like value (stringify returns `undefined` there).
A `File`/`Blob` has no enumerable own properties, so it serializes to
`\x7b\x7d`. -/
def jsonStringify : JSVal → Option String
  | .str s => some (jsonQuote s)
  | .num n => some (toString n)
  | .bool b => some (if b then "true" else "false")
  | .null => some "null"
  | .undef => none
  | .file _ => some "\x7b\x7d"
  | .arr items => some ("[" ++ String.intercalate "," (jsonArrayElems items) ++ "]")
  | .obj fields => some ("\x7b" ++ String.intercalate "," (jsonObjFields fields) ++ "\x7d")

/-- Array elements under `JSON.stringify`: an `undefined` element
serializes as `null`. -/
def jsonArrayElems : List JSVal → List String
  | [] => []
  | v :: rest =>
    (match jsonStringify v with
     | none => "null"
     | some s => s) :: jsonArrayElems rest

/-- Object fields under `JSON.stringify`: a field holding `undefined`
is omitted. -/
def jsonObjFields : List (String × JSVal) → List String
  | [] => []
  | (k, v) :: rest =>
    match jsonStringify v with
    | none => jsonObjFields rest
    | some s => (jsonQuote k ++ ":" ++ s) :: jsonObjFields rest

end

/-! ## Multipart encoding (`mutate`, `isMultipart` branch)

The `FormData` built by `mutate` is a list of appended `(key, value)`
pairs in append order; a part value is either a string or a binary
file part. -/

inductive FDVal where
  | str (s : String)
  | file (name : String)
deriving DecidableEq, Repr

/-- `String(value)` coercion for the values that can reach the final
`else` branch of the encoder (primitives; files, arrays and plain
objects are consumed by the earlier branches). -/
def jsStringPrim : JSVal → String
  | .str s => s
  | .num n => toString n
  | .bool b => if b then "true" else "false"
  | .null => "null"
  | .undef => "undefined"
  | .file _ => "[object File]"
  | .arr _ => ""
  | .obj _ => "[object Object]"

/-- One iteration of the `for (const [key, value] of
Object.entries(dataWithoutParams))` loop in `mutate`’s multipart
branch: files are appended as-is; for an array each element is appended
under the bare `key` (file elements as-is, anything else as
`JSON.stringify(item)`); any other non-null object is appended as
`JSON.stringify(value)`; everything else as `String(value)`. -/
def appendMultipartEntry (fd : List (String × FDVal)) (key : String) (value : JSVal) :
    List (String × FDVal) :=
  match value with
  | .file name => fd ++ [(key, .file name)]
  | .arr items =>
    fd ++ items.map (fun item =>
      match item with
      | .file name => (key, FDVal.file name)
      | other => (key, FDVal.str ((jsonStringify other).getD "undefined")))
  | .obj fields => fd ++ [(key, .str ((jsonStringify (.obj fields)).getD "undefined"))]
  | other => fd ++ [(key, .str (jsStringPrim other))]

/-- The whole multipart branch of `mutate`: fold the entries of the
request body into a fresh `FormData`. -/
def encodeMultipart (entries : List (String × JSVal)) : List (String × FDVal) :=
  entries.foldl (fun fd kv => appendMultipartEntry fd kv.1 kv.2) []

/-- Boolean serialization style option declared on `ApiMutation`. -/
inductive MPBoolStyle where
  | trueFalse
  | numeric
deriving DecidableEq, Repr

/-- The fields of an `ApiMutation` definition that the multipart branch
could consult. -/
structure ApiMutationModel where
  method : String
  path : String
  isMultipart : Bool
  multipartBooleanStyle : Option MPBoolStyle
deriving DecidableEq, Repr

/-- The request body produced by `mutate` for a multipart mutation
definition: the source's encoding loop reads only
`Object.entries(dataWithoutParams)` and never consults
`m.multipartBooleanStyle`. -/
def mutateMultipartBody (_m : ApiMutationModel) (entries : List (String × JSVal)) :
    List (String × FDVal) :=
  encodeMultipart entries

/-- Keys present in an encoded form body. -/
def fdKeys (fd : List (String × FDVal)) : List String := fd.map Prod.fst

/-! ## Path-parameter resolution (the path-param request interceptor)

`replaceParams` iterates `Object.entries(obj)`; for each `[key, value]`
whose token `\x7bkey\x7d` occurs in the current URL it replaces the
*first* occurrence (JavaScript `String.prototype.replace` with a string
pattern) by `encodeURIComponent(String(value))` and deletes the key
from the object. -/

mutual

/-- `String(value)` coercion, including the array case (elements joined
with commas, `null`/`undefined` elements becoming empty strings). -/
def jsToString : JSVal → String
  | .str s => s
  | .num n => toString n
  | .bool b => if b then "true" else "false"
  | .null => "null"
  | .undef => "undefined"
  | .file _ => "[object File]"
  | .obj _ => "[object Object]"
  | .arr items => String.intercalate "," (jsToStringElems items)

/-- Elementwise coercion used by `Array.prototype.toString`. -/
def jsToStringElems : List JSVal → List String
  | [] => []
  | .null :: rest => "" :: jsToStringElems rest
  | .undef :: rest => "" :: jsToStringElems rest
  | v :: rest => jsToString v :: jsToStringElems rest

end

/-- Characters `encodeURIComponent` leaves unescaped:
alphanumerics and `- _ . ! ~ * ' ( )`. -/
def isUnreservedURIChar (c : Char) : Bool :=
  (65 ≤ c.toNat && c.toNat ≤ 90) || (97 ≤ c.toNat && c.toNat ≤ 122) ||
  (48 ≤ c.toNat && c.toNat ≤ 57) ||
  c = '-' || c = '_' || c = '.' || c = '!' || c = '~' || c = '*' ||
  c = Char.ofNat 39 || c = '(' || c = ')'

/-- Uppercase hexadecimal digit. -/
def hexUpper (n : Nat) : Char :=
  if n < 10 then Char.ofNat (48 + n) else Char.ofNat (55 + n)

/-- UTF-8 byte sequence of a code point. -/
def utf8Bytes (n : Nat) : List Nat :=
  if n < 128 then [n]
  else if n < 2048 then [192 + n / 64, 128 + n % 64]
  else if n < 65536 then [224 + n / 4096, 128 + n / 64 % 64, 128 + n % 64]
  else [240 + n / 262144, 128 + n / 4096 % 64, 128 + n / 64 % 64, 128 + n % 64]

/-- Percent-encoding of one escaped character. -/
def percentEncodeChar (c : Char) : List Char :=
  ((utf8Bytes c.toNat).map (fun b => ['%', hexUpper (b / 16), hexUpper (b % 16)])).flatten

/-- Model of JavaScript `encodeURIComponent`. -/
def encodeURIComponent (s : String) : String :=
  String.mk ((s.data.map (fun c =>
    if isUnreservedURIChar c then [c] else percentEncodeChar c)).flatten)

/-- Split a character list at the *first* occurrence of `tok`:
`some (p, s)` means the input is `p ++ tok ++ s` and no occurrence of
`tok` starts earlier than `p.length`; `none` means `tok` does not occur. -/
def firstSplit (tok : List Char) : List Char → Option (List Char × List Char)
  | [] => if tok.isPrefixOf ([] : List Char) then some ([], []) else none
  | c :: rest =>
    if tok.isPrefixOf (c :: rest) then some ([], (c :: rest).drop tok.length)
    else
      match firstSplit tok rest with
      | some (p, s) => some (c :: p, s)
      | none => none

/-- `String.prototype.includes` for a plain-string pattern. -/
def jsIncludes (s tok : String) : Bool :=
  (firstSplit tok.data s.data).isSome

/-- `String.prototype.replace` with a plain-string pattern: replaces
only the first occurrence; returns the string unchanged when the
pattern does not occur. -/
def jsReplaceFirst (s tok repl : String) : String :=
  match firstSplit tok.data s.data with
  | some (p, suffix) => String.mk (p ++ repl.data ++ suffix)
  | none => s

/-- The `\x7bkey\x7d` token looked up in the URL template. -/
def pathToken (k : String) : String := "\x7b" ++ k ++ "\x7d"

/-- The `replaceParams` loop of the path-param request interceptor:
returns the rewritten URL and the entries still present in the source
object after the matched keys have been deleted. -/
def replaceParams : String → List (String × JSVal) → String × List (String × JSVal)
  | url, [] => (url, [])
  | url, (k, v) :: rest =>
    if jsIncludes url (pathToken k) then
      replaceParams (jsReplaceFirst url (pathToken k) (encodeURIComponent (jsToString v))) rest
    else
      let r := replaceParams url rest
      (r.1, (k, v) :: r.2)

/-! ## Before-request hook chain

`refetch`/`mutate` build `requestConfig`, apply the definition-level
`onBeforeRequest` hook, then the call-site (`options`) hook
(`Object.assign`-merging any returned replacement), and only then call
`client.request(requestConfig)` — at which point the axios request
interceptors registered by the factory run, among them the client-global
`onBeforeRequest` interceptor (`return modifiedConfig || config`). -/

/-- Request configuration as seen by the hook chain (headers as an
insertion-ordered association list with unique names). -/
structure ReqConfig where
  method : String
  url : String
  headers : List (String × String)
deriving DecidableEq, Repr

/-- Set a header, overwriting an existing entry of the same name. -/
def upsertHeader : List (String × String) → String → String → List (String × String)
  | [], n, v => [(n, v)]
  | (k, w) :: rest, n, v =>
    if k = n then (n, v) :: rest else (k, w) :: upsertHeader rest n v

/-- `config.headers = \x7b ...config.headers, name: val \x7d`. -/
def setHeader (cfg : ReqConfig) (name val : String) : ReqConfig :=
  { cfg with headers := upsertHeader cfg.headers name val }

/-- Value of a header in a configuration. -/
def headerValue (cfg : ReqConfig) (name : String) : Option String :=
  (cfg.headers.find? (fun kv => kv.1 = name)).map Prod.snd

/-- A before-request hook: it may return a replacement configuration or
return nothing (`void`), having mutated the configuration in place
(modelled by the hook returning the mutated configuration). -/
def Hook : Type := ReqConfig → Option ReqConfig

/-- Application of a definition-level or call-site hook in
`refetch`/`mutate`: `if (modifiedConfig !== undefined)
Object.assign(requestConfig, modifiedConfig)`. -/
def applyLocalHook (cfg : ReqConfig) : Option Hook → ReqConfig
  | none => cfg
  | some h =>
    match h cfg with
    | none => cfg
    | some modified => modified

/-- The factory's global `onBeforeRequest` request interceptor:
`return modifiedConfig || config`. -/
def applyGlobalInterceptor (cfg : ReqConfig) : Option Hook → ReqConfig
  | none => cfg
  | some h =>
    match h cfg with
    | none => cfg
    | some modified => modified

/-- The configuration actually dispatched for one invocation: `refetch`
(`mutate`) applies the definition-level hook, then the call-site hook,
and hands the result to `client.request`, whose interceptor chain then
runs the factory-global `onBeforeRequest` interceptor. -/
def dispatchedConfig (globalHook defHook callSiteHook : Option Hook)
    (base : ReqConfig) : ReqConfig :=
  applyGlobalInterceptor (applyLocalHook (applyLocalHook base defHook) callSiteHook) globalHook

/-- A hook that only sets one header and returns the configuration,
as in the repository's interceptor examples and tests. -/
def headerHook (name val : String) : Hook :=
  fun cfg => some (setHeader cfg name val)

/-- Concrete base configuration for the hook-order scenario. -/
def baseGetUserConfig : ReqConfig :=
  { method := "GET", url := "/users/\x7bid\x7d", headers := [] }

/-! ## CSRF recovery interceptor (single-flight refresh)

Shared state of one client instance: `isRefreshingCsrf`,
`csrfRefreshPromise`, plus the per-request `_retry` marker.  Execution
is JavaScript-style run-to-completion: the synchronous prefix of the
response-error handler (guards, `_retry` marking, check-and-set of the
refresh state) runs atomically; an awaiting continuation resumes only
when the shared refresh promise resolves, which first runs its `.then`
(clearing the shared state) and then each awaiting continuation, each
of which replays its original request once via `client.request`. -/

/-- The observable part of a failed request: its URL and HTTP status. -/
structure FailedReq where
  url : String
  status : Nat
deriving DecidableEq, Repr

/-- Client-level CSRF state together with the bookkeeping of the
two-request scenario: `_retry` markers, number of refresh-endpoint
calls, continuations awaiting the in-flight promise, and how many times
each original request has been replayed. -/
structure CsrfState where
  isRefreshingCsrf : Bool
  hasPromise : Bool
  refreshCalls : Nat
  waiters : List (Fin 2)
  retried : Fin 2 → Bool
  replays : Fin 2 → Nat

/-- Initial client state: no refresh in flight, nothing retried. -/
def csrfInit : CsrfState :=
  { isRefreshingCsrf := false, hasPromise := false, refreshCalls := 0,
    waiters := [], retried := fun _ => false, replays := fun _ => 0 }

/-- Pointwise update of a `Fin 2`-indexed map. -/
def updFin2 {α : Type} (f : Fin 2 → α) (i : Fin 2) (a : α) : Fin 2 → α :=
  fun j => if j = i then a else f j

/-- Synchronous prefix of the CSRF response-error interceptor for
failure of request `i`: reject outright for the refresh endpoint
itself, for statuses other than 403/419, and for already-retried
requests; otherwise mark `_retry` and either await the in-flight
refresh promise or start a new refresh (`refreshCalls + 1`) and await
it.  In both cases the continuation (which will replay the original
request) is registered on the shared promise. -/
def csrfFailStep (refreshEndpoint : String) (reqs : Fin 2 → FailedReq) (i : Fin 2)
    (s : CsrfState) : CsrfState :=
  if (reqs i).url = refreshEndpoint then s
  else if ((reqs i).status = 403 ∨ (reqs i).status = 419) ∧ ¬ s.retried i then
    if s.isRefreshingCsrf ∧ s.hasPromise then
      { s with retried := updFin2 s.retried i true, waiters := s.waiters ++ [i] }
    else
      { s with retried := updFin2 s.retried i true, isRefreshingCsrf := true,
               hasPromise := true, refreshCalls := s.refreshCalls + 1,
               waiters := s.waiters ++ [i] }
  else s

/-- Resolution of the shared refresh promise: its `.then` clears
`isRefreshingCsrf`/`csrfRefreshPromise`, then every awaiting
continuation resumes and replays its original request exactly once. -/
def csrfResolveStep (s : CsrfState) : CsrfState :=
  { s with isRefreshingCsrf := false, hasPromise := false,
           replays := fun j => s.replays j + s.waiters.count j, waiters := [] }

/-- Events of the two-request scenario. -/
inductive CsrfEvent where
  | fail (i : Fin 2)
  | resolve
deriving DecidableEq, Repr

/-- Run a schedule of events against the client state. -/
def csrfRun (refreshEndpoint : String) (reqs : Fin 2 → FailedReq) :
    List CsrfEvent → CsrfState → CsrfState
  | [], s => s
  | .fail i :: rest, s => csrfRun refreshEndpoint reqs rest (csrfFailStep refreshEndpoint reqs i s)
  | .resolve :: rest, s => csrfRun refreshEndpoint reqs rest (csrfResolveStep s)

/-! ## Error classification in `refetch`

The catch branch of `refetch` distinguishes axios transport errors
(with the `ERR_CANCELED` guard), Zod validation errors, and anything
else, and records which reactive state is populated and which
callbacks are invoked. -/

/-- An error thrown inside `refetch`'s try block. -/
inductive ThrownError where
  | axios (code : Option String) (responseDataMessage : Option String) (errMessage : String)
  | zod (fieldErrors : List (String × List String))
  | other (message : String)

/-- JavaScript `a || b` on an optional string, where the empty string
is falsy. -/
def jsOrStr (a : Option String) (b : String) : String :=
  match a with
  | some s => if s = "" then b else s
  | none => b

/-- `err.response?.data?.message || err.message || "An error occurred"`. -/
def axiosMessage (responseDataMessage : Option String) (errMessage : String) : String :=
  jsOrStr responseDataMessage (jsOrStr (some errMessage) "An error occurred")

/-- The human-readable summary built from `z.flattenError(err)`:
the template literal
`$\x7bObject.values(fieldErrors).at(0)\x7d.$\x7blength > 1 ? ...\x7d`,
where `length` is `Object.keys(fieldErrors).length`, the first value
(an array of messages) stringifies by joining with commas, and a
missing first value stringifies as `undefined`. -/
def zodErrorMessage (fieldErrors : List (String × List String)) : String :=
  let length := fieldErrors.length
  let firstStr :=
    match (fieldErrors.map Prod.snd).head? with
    | none => "undefined"
    | some msgs => String.intercalate "," msgs
  firstStr ++ "." ++
    (if 1 < length then " (and " ++ toString (length - 1) ++ " more errors)" else "")

/-- What a `refetch` failure leaves behind: the final `errorMessage`
value (it was reset to `undefined` on entry), whether `zodError` was
populated, and which of the four callbacks were invoked. -/
structure ErrorOutcome where
  errorMessage : Option String
  zodErrorSet : Bool
  localOnError : Bool
  localOnZodError : Bool
  globalOnError : Bool
  globalOnZodError : Bool
deriving DecidableEq, Repr

/-- The catch branch of `refetch`: an `AxiosError` with code
`ERR_CANCELED` is ignored entirely; any other `AxiosError` populates
`errorMessage` and fires the local and global `onError`; a `ZodError`
populates `zodError` and `errorMessage` and fires all four callbacks;
anything else populates `errorMessage` and fires both `onError`s. -/
def handleQueryError : ThrownError → ErrorOutcome
  | .axios code responseDataMessage errMessage =>
    if code = some "ERR_CANCELED" then
      { errorMessage := none, zodErrorSet := false, localOnError := false,
        localOnZodError := false, globalOnError := false, globalOnZodError := false }
    else
      { errorMessage := some (axiosMessage responseDataMessage errMessage),
        zodErrorSet := false, localOnError := true, localOnZodError := false,
        globalOnError := true, globalOnZodError := false }
  | .zod fieldErrors =>
      { errorMessage := some (zodErrorMessage fieldErrors), zodErrorSet := true,
        localOnError := true, localOnZodError := true,
        globalOnError := true, globalOnZodError := true }
  | .other message =>
      { errorMessage := some (jsOrStr (some message) "An error occurred"),
        zodErrorSet := false, localOnError := true, localOnZodError := false,
        globalOnError := true, globalOnZodError := false }

/-! ## Query hook instance creation and teardown

`createQueryHooks` registers the `onMounted` watcher and the
`onBeforeUnmount` teardown handler (stop watcher, abort the
controller) only inside `if (queryOptions?.params || queryOptions?.data)`. -/

/-- The call-site options of a query hook invocation (after the
bare-params/options disambiguation). -/
structure QueryOptionsModel where
  params : Option JSVal
  data : Option JSVal
  loadOnMount : Option Bool
  debounce : Option Nat

/-- Truthiness of an optional JavaScript value. -/
def optTruthy : Option JSVal → Bool
  | none => false
  | some v => jsTruthy v

/-- `queryOptions?.params || queryOptions?.data`. -/
def hookHasReactiveInputs (opts : Option QueryOptionsModel) : Bool :=
  match opts with
  | none => false
  | some o => optTruthy o.params || optTruthy o.data

/-- What one query hook invocation sets up. -/
structure QueryHookInstance where
  watcherRegistered : Bool
  unmountHandlerRegistered : Bool
  initialFetchRun : Bool
deriving DecidableEq, Repr

/-- Hook creation: the watcher and the `onBeforeUnmount` handler are
registered only when the call carried truthy `params` or `data`; the
initial fetch runs when `loadOnMount` is unset or true (fresh state:
`isDone` false, `isFirstLoad` true). -/
def createQueryHookInstance (opts : Option QueryOptionsModel) : QueryHookInstance :=
  let reactive := hookHasReactiveInputs opts
  { watcherRegistered := reactive
    unmountHandlerRegistered := reactive
    initialFetchRun :=
      match opts with
      | none => true
      | some o =>
        match o.loadOnMount with
        | none => true
        | some b => b }

/-- What happens when the owning scope is torn down. -/
structure TeardownEffect where
  watcherStopped : Bool
  inFlightAborted : Bool
deriving DecidableEq, Repr

/-- Scope teardown runs the `onBeforeUnmount` handler — which stops the
watcher and aborts the controller — only if that handler was
registered at hook creation. -/
def scopeTeardownEffect (opts : Option QueryOptionsModel) : TeardownEffect :=
  if (createQueryHookInstance opts).unmountHandlerRegistered then
    { watcherStopped := true, inFlightAborted := true }
  else
    { watcherStopped := false, inFlightAborted := false }

/-! ## Definition trees, leaf detection, hook-tree construction, merge

A definition tree value is either a primitive-ish JavaScript value or
a plain object of named children (arrays and other exotic objects,
which definition authors never supply, are collapsed into `arrLike`;
where the source would enumerate their entries the model enumerates
nothing). -/

inductive DefVal where
  | str (s : String)
  | num (n : Int)
  | bool (b : Bool)
  | null
  | undef
  | arrLike
  | obj (fields : List (String × DefVal))

/-- Property lookup on a plain object. -/
def jsLookupField (fields : List (String × DefVal)) (k : String) : Option DefVal :=
  (fields.find? (fun kv => kv.1 = k)).map Prod.snd

/-- Truthiness of a definition-tree value. -/
def defTruthy : DefVal → Bool
  | .str s => !(s = "")
  | .num n => !(n = 0)
  | .bool b => b
  | .null => false
  | .undef => false
  | .arrLike => true
  | .obj _ => true

/-- `typeof obj.key === 'string'` on a plain object. -/
def lookupIsStr (fields : List (String × DefVal)) (key : String) : Bool :=
  match jsLookupField fields key with
  | some (DefVal.str _) => true
  | _ => false

/-- `isApiQuery`: a non-null object whose `path` property is a string. -/
def isApiQueryD : DefVal → Bool
  | .obj fields => lookupIsStr fields "path"
  | _ => false

/-- `isApiMutation`: a non-null object whose `path` and `method`
properties are both strings. -/
def isApiMutationD : DefVal → Bool
  | .obj fields => lookupIsStr fields "path" && lookupIsStr fields "method"
  | _ => false

/-- The child entries a recursive walk would enumerate: the fields of a
plain object, nothing for any other value. -/
def childFieldsD : DefVal → List (String × DefVal)
  | .obj fields => fields
  | _ => []

/-- The hook tree produced by the factory: each definition leaf becomes
a callable hook (carrying the definition it closed over), each nested
map becomes a sub-tree. -/
inductive HookTree where
  | leaf (d : DefVal)
  | node (children : List (String × HookTree))

/-- The loop body of `createQueryHooks`: falsy values are skipped
(`continue`), a value passing `isApiQuery` becomes a hook leaf (its
contents are closed over, never walked), any other value of object type
is recursed into, and remaining primitives are skipped (no branch
assigns them). -/
def queryHookChildren : List (String × DefVal) → List (String × HookTree)
  | [] => []
  | (k, v) :: rest =>
    let tail := queryHookChildren rest
    if defTruthy v = false then tail
    else if isApiQueryD v then (k, HookTree.leaf v) :: tail
    else
      match v with
      | .obj fields => (k, HookTree.node (queryHookChildren fields)) :: tail
      | .arrLike => (k, HookTree.node []) :: tail
      | _ => tail

/-- The loop body of `createMutationHooks`, identical but testing
`isApiMutation`. -/
def mutationHookChildren : List (String × DefVal) → List (String × HookTree)
  | [] => []
  | (k, v) :: rest =>
    let tail := mutationHookChildren rest
    if defTruthy v = false then tail
    else if isApiMutationD v then (k, HookTree.leaf v) :: tail
    else
      match v with
      | .obj fields => (k, HookTree.node (mutationHookChildren fields)) :: tail
      | .arrLike => (k, HookTree.node []) :: tail
      | _ => tail

/-- `deepMerge`'s test for "nested object, merge recursively":
`value && typeof value === 'object' && !Array.isArray(value) &&
!('path' in value)`.  Any object having a `path` property — whatever
its type — fails the test and is assigned wholesale. -/
def isMergeNested : DefVal → Bool
  | .obj fields => (jsLookupField fields "path").isNone
  | _ => false

/-- `result[key] = value`, keeping the original key position when the
key already exists. -/
def upsertField : List (String × DefVal) → String → DefVal → List (String × DefVal)
  | [], k, v => [(k, v)]
  | (k0, v0) :: rest, k, v =>
    if k0 = k then (k, v) :: rest else (k0, v0) :: upsertField rest k v

/-- The entry loop of `deepMerge`, merging one source object into the
accumulated result: a nested object (per `isMergeNested`) is merged
recursively with `result[key] || \x7b\x7d`; anything else — an API
definition, an array, or a primitive — is assigned.  (The source's
recursive call `deepMerge(result[key] || \x7b\x7d, value)` also
re-normalizes the accumulated subtree; on unique-key object trees that
pass is the identity and is elided here.) -/
def mergeInto : List (String × DefVal) → List (String × DefVal) → List (String × DefVal)
  | res, [] => res
  | res, (k, DefVal.obj fields) :: rest =>
    if (jsLookupField fields "path").isNone then
      let existing :=
        match jsLookupField res k with
        | some (DefVal.obj efs) => efs
        | _ => []
      mergeInto (upsertField res k (DefVal.obj (mergeInto existing fields))) rest
    else
      mergeInto (upsertField res k (DefVal.obj fields)) rest
  | res, (k, v) :: rest => mergeInto (upsertField res k v) rest

/-- Variadic `deepMerge(...objects)` as used by `mergeQueries` /
`mergeMutations`: fold each definition object into an initially empty
result. -/
def deepMergeAll (objects : List (List (String × DefVal))) : List (String × DefVal) :=
  objects.foldl mergeInto []

/-! ## Concrete scenario inputs used by the claim theorems -/

/-- A multipart mutation definition with the boolean style left unset. -/
def multipartDemoDef : ApiMutationModel :=
  { method := "POST", path := "/upload", isMultipart := true, multipartBooleanStyle := none }

/-- A multipart mutation definition configured with the `numeric`
boolean style. -/
def multipartNumericDef : ApiMutationModel :=
  { method := "POST", path := "/upload", isMultipart := true,
    multipartBooleanStyle := some MPBoolStyle.numeric }

/-- Two distinct in-flight requests that both fail with HTTP 403. -/
def demoCsrfReqs : Fin 2 → FailedReq :=
  fun i => if i = 0 then { url := "/users", status := 403 } else { url := "/posts", status := 403 }

/-- Call-site options carrying a truthy `params` object. -/
def reactiveOptsDemo : QueryOptionsModel :=
  { params := some (JSVal.obj [("id", JSVal.num 1)]), data := none,
    loadOnMount := none, debounce := none }

/-- Call-site options carrying neither `params` nor `data`. -/
def emptyOptsDemo : QueryOptionsModel :=
  { params := none, data := none, loadOnMount := none, debounce := none }

/-- An ordinary query definition leaf. -/
def leafDemo : DefVal := DefVal.obj [("path", DefVal.str "/auth/me")]

/-- A grouping map that happens to contain a key literally named
`path` with a string value, next to a genuine sub-definition. -/
def groupWithPathKey : DefVal :=
  DefVal.obj [("path", DefVal.str "/oops"), ("me", leafDemo)]

/-- A second leaf mapped under the same key as `groupWithPathKey`. -/
def otherLeafDemo : DefVal := DefVal.obj [("path", DefVal.str "/other")]

/-! ## Supporting lemmas on first-occurrence splitting -/

theorem firstSplit_sound (tok : List Char) :
    ∀ (l p s : List Char), firstSplit tok l = some (p, s) → l = p ++ tok ++ s := by
  intro l
  induction l with
  | nil =>
    intro p s h
    simp only [firstSplit] at h
    by_cases hp : tok.isPrefixOf ([] : List Char)
    · rw [if_pos hp] at h
      have htok : tok = [] := by
        have := List.isPrefixOf_iff_prefix.mp hp
        simpa using this
      cases h
      simp [htok]
    · rw [if_neg hp] at h
      cases h
  | cons c rest ih =>
    intro p s h
    simp only [firstSplit] at h
    by_cases hp : tok.isPrefixOf (c :: rest)
    · rw [if_pos hp] at h
      obtain ⟨t, ht⟩ := List.isPrefixOf_iff_prefix.mp hp
      cases h
      rw [← ht]
      simp
    · rw [if_neg hp] at h
      cases hfs : firstSplit tok rest with
      | none => rw [hfs] at h; cases h
      | some ps =>
        obtain ⟨p₀, s₀⟩ := ps
        rw [hfs] at h
        cases h
        have := ih p₀ s hfs
        simp [this]

theorem firstSplit_isSome_of_eq (tok : List Char) :
    ∀ (p s : List Char), (firstSplit tok (p ++ tok ++ s)).isSome = true := by
  intro p
  induction p with
  | nil =>
    intro s
    cases tok with
    | nil =>
      cases s with
      | nil => rfl
      | cons c rest =>
        show (firstSplit [] (c :: rest)).isSome = true
        simp only [firstSplit]
        rw [if_pos (by rw [List.isPrefixOf_iff_prefix]; exact ⟨c :: rest, rfl⟩)]
        rfl
    | cons c t' =>
      show (firstSplit (c :: t') (c :: (t' ++ s))).isSome = true
      simp only [firstSplit]
      rw [if_pos (by rw [List.isPrefixOf_iff_prefix]; exact ⟨s, by simp⟩)]
      rfl
  | cons c p' ih =>
    intro s
    show (firstSplit tok (c :: (p' ++ tok ++ s))).isSome = true
    simp only [firstSplit]
    by_cases hp : tok.isPrefixOf (c :: (p' ++ tok ++ s)) = true
    · rw [if_pos hp]; rfl
    · rw [if_neg hp]
      obtain ⟨ps, hps⟩ := Option.isSome_iff_exists.mp (ih s)
      obtain ⟨p₀, s₀⟩ := ps
      rw [hps]
      rfl

theorem firstSplit_min (tok : List Char) :
    ∀ (l p s : List Char), firstSplit tok l = some (p, s) →
      ∀ p' s', l = p' ++ tok ++ s' → p.length ≤ p'.length := by
  intro l
  induction l with
  | nil =>
    intro p s h p' s' _
    simp only [firstSplit] at h
    by_cases hp : tok.isPrefixOf ([] : List Char)
    · rw [if_pos hp] at h; cases h; exact Nat.zero_le _
    · rw [if_neg hp] at h; cases h
  | cons c rest ih =>
    intro p s h p' s' heq
    simp only [firstSplit] at h
    by_cases hp : tok.isPrefixOf (c :: rest)
    · rw [if_pos hp] at h; cases h; exact Nat.zero_le _
    · rw [if_neg hp] at h
      cases hfs : firstSplit tok rest with
      | none => rw [hfs] at h; cases h
      | some ps =>
        obtain ⟨p₀, s₀⟩ := ps
        rw [hfs] at h
        cases h
        cases p' with
        | nil =>
          exfalso
          apply hp
          rw [List.isPrefixOf_iff_prefix]
          refine ⟨s', ?_⟩
          simpa using heq.symm
        | cons c' p'' =>
          have hrest : rest = p'' ++ tok ++ s' := by
            have := heq
            simp only [List.cons_append] at this
            exact (List.cons_eq_cons.mp this).2
          exact Nat.succ_le_succ (ih p₀ s hfs p'' s' hrest)

/-- Entries surviving `replaceParams` are original entries, values
untouched. -/
theorem replaceParams_remaining_subset :
    ∀ (entries : List (String × JSVal)) (url : String) (kv : String × JSVal),
      kv ∈ (replaceParams url entries).2 → kv ∈ entries := by
  intro entries
  induction entries with
  | nil => intro url kv h; simp [replaceParams] at h
  | cons e rest ih =>
    intro url kv h
    obtain ⟨k, v⟩ := e
    simp only [replaceParams] at h
    by_cases hinc : jsIncludes url (pathToken k) = true
    · rw [if_pos hinc] at h
      exact List.mem_cons_of_mem _ (ih _ kv h)
    · rw [if_neg hinc] at h
      simp only [List.mem_cons] at h
      rcases h with h | h
      · exact h ▸ List.mem_cons_self _ _
      · exact List.mem_cons_of_mem _ (ih _ kv h)

/-! ## Supporting lemmas on the CSRF interceptor steps -/

/-- A CSRF-class failure arriving while no refresh is in flight starts
one: it marks `_retry`, sets the shared flag/promise, calls the refresh
endpoint once more, and awaits the new promise. -/
theorem csrfFailStep_starts_refresh (ep : String) (reqs : Fin 2 → FailedReq) (i : Fin 2)
    (s : CsrfState) (hurl : ¬ (reqs i).url = ep)
    (hst : (reqs i).status = 403 ∨ (reqs i).status = 419)
    (hret : s.retried i = false)
    (hnot : ¬ (s.isRefreshingCsrf = true ∧ s.hasPromise = true)) :
    csrfFailStep ep reqs i s =
      { s with retried := updFin2 s.retried i true, isRefreshingCsrf := true,
               hasPromise := true, refreshCalls := s.refreshCalls + 1,
               waiters := s.waiters ++ [i] } := by
  unfold csrfFailStep
  rw [if_neg hurl, if_pos ⟨hst, by simp [hret]⟩, if_neg hnot]

/-- A CSRF-class failure arriving while a refresh is in flight awaits
the existing promise: `_retry` is marked, no additional refresh call is
made, and the continuation joins the waiters of the shared promise. -/
theorem csrfFailStep_awaits_existing (ep : String) (reqs : Fin 2 → FailedReq) (i : Fin 2)
    (s : CsrfState) (hurl : ¬ (reqs i).url = ep)
    (hst : (reqs i).status = 403 ∨ (reqs i).status = 419)
    (hret : s.retried i = false)
    (href : s.isRefreshingCsrf = true) (hprom : s.hasPromise = true) :
    csrfFailStep ep reqs i s =
      { s with retried := updFin2 s.retried i true, waiters := s.waiters ++ [i] } := by
  unfold csrfFailStep
  rw [if_neg hurl, if_pos ⟨hst, by simp [hret]⟩, if_pos ⟨href, hprom⟩]

/-! ## Claim theorems -/

/-- C3: for two concurrent requests on one client instance that both
fail with HTTP 403 (or 419) — neither being the refresh endpoint, and
the second failure arriving while the first one's refresh is still in
flight, in either arrival order — the CSRF recovery interceptor calls
the refresh endpoint exactly once (the second failure awaits the same
in-flight promise), and after the shared refresh resolves each original
request is replayed exactly once. -/
theorem c3_csrf_single_flight (ep : String) (reqs : Fin 2 → FailedReq)
    (sched : List CsrfEvent)
    (hurl : ∀ i, ¬ (reqs i).url = ep)
    (hst : ∀ i, (reqs i).status = 403 ∨ (reqs i).status = 419)
    (hsched : sched = [CsrfEvent.fail 0, CsrfEvent.fail 1, CsrfEvent.resolve] ∨
              sched = [CsrfEvent.fail 1, CsrfEvent.fail 0, CsrfEvent.resolve]) :
    (csrfRun ep reqs sched csrfInit).refreshCalls = 1 ∧
    (csrfRun ep reqs sched csrfInit).replays 0 = 1 ∧
    (csrfRun ep reqs sched csrfInit).replays 1 = 1 := by
  rcases hsched with h | h <;> subst h <;>
    simp only [csrfRun] <;>
    rw [csrfFailStep_starts_refresh ep reqs _ csrfInit (hurl _) (hst _) rfl
          (by simp [csrfInit])] <;>
    rw [csrfFailStep_awaits_existing ep reqs _ _ (hurl _) (hst _) (by decide) rfl rfl] <;>
    exact ⟨rfl, by decide, by decide⟩

/-- Witness for C3 at a concrete endpoint, pair of failed requests,
and schedule. -/
theorem c3_csrf_single_flight_witness :
    (csrfRun "/csrf" demoCsrfReqs
        [CsrfEvent.fail 0, CsrfEvent.fail 1, CsrfEvent.resolve] csrfInit).refreshCalls = 1 ∧
    (csrfRun "/csrf" demoCsrfReqs
        [CsrfEvent.fail 0, CsrfEvent.fail 1, CsrfEvent.resolve] csrfInit).replays 0 = 1 ∧
    (csrfRun "/csrf" demoCsrfReqs
        [CsrfEvent.fail 0, CsrfEvent.fail 1, CsrfEvent.resolve] csrfInit).replays 1 = 1 :=
  c3_csrf_single_flight "/csrf" demoCsrfReqs _ (by decide) (by decide) (Or.inl rfl)

/-- C4: path resolution substitutes a `\x7bkey\x7d` token that occurs
in the URL with the URL-encoded string form of the value and deletes
the key from the source object, leaves entries without a matching token
untouched (same key, same value), and in particular resolving
`/users/\x7bid\x7d` against `\x7bid: 1, page: 2\x7d` yields
`/users/1` with remaining source `\x7bpage: 2\x7d`. -/
theorem c4_path_resolution :
    (∀ (url : String) (entries : List (String × JSVal)) (kv : String × JSVal),
        kv ∈ (replaceParams url entries).2 → kv ∈ entries) ∧
    (∀ (url k : String) (v : JSVal) (rest : List (String × JSVal)),
        jsIncludes url (pathToken k) = true →
        replaceParams url ((k, v) :: rest) =
          replaceParams (jsReplaceFirst url (pathToken k)
            (encodeURIComponent (jsToString v))) rest) ∧
    (∀ (url k : String) (v : JSVal) (rest : List (String × JSVal)),
        jsIncludes url (pathToken k) = false →
        replaceParams url ((k, v) :: rest) =
          ((replaceParams url rest).1, (k, v) :: (replaceParams url rest).2)) ∧
    replaceParams "/users/\x7bid\x7d" [("id", JSVal.num 1), ("page", JSVal.num 2)] =
      ("/users/1", [("page", JSVal.num 2)]) := by
  refine ⟨fun url entries kv h => replaceParams_remaining_subset entries url kv h, ?_, ?_, rfl⟩
  · intro url k v rest h
    simp [replaceParams, h]
  · intro url k v rest h
    simp [replaceParams, h]

/-- Witness for C4: the substitution step applied at the concrete
template `/users/\x7bid\x7d` with source entry `id: 1`. -/
theorem c4_path_resolution_witness :
    replaceParams "/users/\x7bid\x7d" (("id", JSVal.num 1) :: [("page", JSVal.num 2)]) =
      replaceParams (jsReplaceFirst "/users/\x7bid\x7d" (pathToken "id")
        (encodeURIComponent (jsToString (JSVal.num 1)))) [("page", JSVal.num 2)] :=
  c4_path_resolution.2.1 "/users/\x7bid\x7d" "id" (JSVal.num 1)
    [("page", JSVal.num 2)] (by rfl)

/-- C10: when the same `\x7btoken\x7d` occurs more than once in the
template, resolution substitutes only the first occurrence — the prefix
before the first occurrence is minimal, the suffix after it (holding
every later occurrence) survives verbatim — and the key is still
deleted from the source object; concretely
`/a/\x7bid\x7d/b/\x7bid\x7d` with `id: 1` resolves to
`/a/1/b/\x7bid\x7d`, which still contains the token. -/
theorem c10_first_occurrence_only :
    (∀ (url k : String) (v : JSVal) (p s : List Char),
        firstSplit (pathToken k).data url.data = some (p, s) →
        url.data = p ++ (pathToken k).data ++ s ∧
        (∀ p' s', url.data = p' ++ (pathToken k).data ++ s' → p.length ≤ p'.length) ∧
        replaceParams url [(k, v)] =
          (String.mk (p ++ (encodeURIComponent (jsToString v)).data ++ s), [])) ∧
    replaceParams "/a/\x7bid\x7d/b/\x7bid\x7d" [("id", JSVal.num 1)] =
      ("/a/1/b/\x7bid\x7d", []) ∧
    jsIncludes "/a/1/b/\x7bid\x7d" (pathToken "id") = true := by
  refine ⟨?_, rfl, rfl⟩
  intro url k v p s h
  refine ⟨firstSplit_sound _ _ _ _ h,
          fun p' s' h' => firstSplit_min _ _ _ _ h p' s' h', ?_⟩
  have hinc : jsIncludes url (pathToken k) = true := by
    unfold jsIncludes
    rw [h]
    rfl
  simp [replaceParams, hinc, jsReplaceFirst, h]

/-- Witness for C10: substitution of the duplicated token at the
concrete template, via the first-occurrence split. -/
theorem c10_first_occurrence_only_witness :
    replaceParams "/a/\x7bid\x7d/b/\x7bid\x7d" [("id", JSVal.num 1)] =
      (String.mk ("/a/".data ++
        (encodeURIComponent (jsToString (JSVal.num 1))).data ++ "/b/\x7bid\x7d".data), []) :=
  (c10_first_occurrence_only.1 "/a/\x7bid\x7d/b/\x7bid\x7d" "id" (JSVal.num 1)
    "/a/".data "/b/\x7bid\x7d".data (by rfl)).2.2

/-- C1: evaluation of the hook chain at the failing input.  The claim
states the order global → definition → call-site with the later hook
winning header conflicts, so with a global hook and a call-site hook
both setting header `H` the dispatched value should be the call-site
one; the code applies the definition-level and call-site hooks inside
`refetch` before dispatch and the factory-global hook as an axios
request interceptor at dispatch time, so the dispatched configuration
carries the global hook's value `"global"`, not `"call"` — and three
hooks setting distinct headers land in definition, call-site, global
order. -/
theorem c1_hook_chain_global_runs_last :
    headerValue (dispatchedConfig (some (headerHook "H" "global"))
        (some (headerHook "H" "def")) (some (headerHook "H" "call"))
        baseGetUserConfig) "H" = some "global" ∧
    ¬ headerValue (dispatchedConfig (some (headerHook "H" "global"))
        (some (headerHook "H" "def")) (some (headerHook "H" "call"))
        baseGetUserConfig) "H" = some "call" ∧
    (dispatchedConfig (some (headerHook "A" "global")) (some (headerHook "B" "def"))
        (some (headerHook "C" "call")) baseGetUserConfig).headers =
      [("B", "def"), ("C", "call"), ("A", "global")] := by
  refine ⟨rfl, ?_, rfl⟩
  decide

/-- C2: evaluation of the multipart branch at the failing inputs.  The
claim states recursive bracket-path flattening, so encoding
`\x7ba: \x7bb: "x"\x7d\x7d` should yield the single pair
`("a[b]", "x")` and `\x7ba: [1, 2]\x7d` the pairs `("a[0]", "1")`,
`("a[1]", "2")`; the code instead appends the nested object
JSON-stringified under the bare key `a`, and appends array elements
under the bare repeated key `a` — no bracket-path key is produced. -/
theorem c2_multipart_nested_not_bracket_flattened :
    mutateMultipartBody multipartDemoDef [("a", JSVal.obj [("b", JSVal.str "x")])] =
      [("a", FDVal.str "\x7b\"b\":\"x\"\x7d")] ∧
    ¬ "a[b]" ∈ fdKeys (mutateMultipartBody multipartDemoDef
        [("a", JSVal.obj [("b", JSVal.str "x")])]) ∧
    mutateMultipartBody multipartDemoDef [("a", JSVal.arr [JSVal.num 1, JSVal.num 2])] =
      [("a", FDVal.str "1"), ("a", FDVal.str "2")] ∧
    ¬ "a[0]" ∈ fdKeys (mutateMultipartBody multipartDemoDef
        [("a", JSVal.arr [JSVal.num 1, JSVal.num 2])]) ∧
    ¬ "a[1]" ∈ fdKeys (mutateMultipartBody multipartDemoDef
        [("a", JSVal.arr [JSVal.num 1, JSVal.num 2])]) := by
  refine ⟨rfl, ?_, rfl, ?_, ?_⟩ <;> decide

/-- C7: evaluation of the multipart branch at the failing input.  The
claim states that a boolean serializes as `"1"`/`"0"` under the
`numeric` style; the code serializes every non-object primitive with
`String(value)` and never consults `multipartBooleanStyle`, so
`\x7bflag: true\x7d` encodes to `"true"` under both styles, and the
encoder output is independent of the definition altogether. -/
theorem c7_multipart_boolean_style_ignored :
    mutateMultipartBody multipartNumericDef [("flag", JSVal.bool true)] =
      [("flag", FDVal.str "true")] ∧
    mutateMultipartBody multipartDemoDef [("flag", JSVal.bool true)] =
      [("flag", FDVal.str "true")] ∧
    multipartNumericDef.multipartBooleanStyle = some MPBoolStyle.numeric ∧
    (∀ (m₁ m₂ : ApiMutationModel) (entries : List (String × JSVal)),
        mutateMultipartBody m₁ entries = mutateMultipartBody m₂ entries) :=
  ⟨rfl, rfl, rfl, fun _ _ _ => rfl⟩

/-- C5: a query failure whose code is `ERR_CANCELED` leaves
`errorMessage` unset and invokes no local or global error callback,
while any other axios failure populates `errorMessage` and invokes
both `onError` callbacks. -/
theorem c5_canceled_failures_silent :
    (∀ (respMsg : Option String) (errMsg : String),
        handleQueryError (ThrownError.axios (some "ERR_CANCELED") respMsg errMsg) =
          { errorMessage := none, zodErrorSet := false, localOnError := false,
            localOnZodError := false, globalOnError := false,
            globalOnZodError := false }) ∧
    (∀ (code respMsg : Option String) (errMsg : String),
        ¬ code = some "ERR_CANCELED" →
        (handleQueryError (ThrownError.axios code respMsg errMsg)).errorMessage =
            some (axiosMessage respMsg errMsg) ∧
        (handleQueryError (ThrownError.axios code respMsg errMsg)).localOnError = true ∧
        (handleQueryError (ThrownError.axios code respMsg errMsg)).globalOnError = true) := by
  constructor
  · intro respMsg errMsg
    simp [handleQueryError]
  · intro code respMsg errMsg h
    simp [handleQueryError, h]

/-- Witness for C5: a non-cancellation network failure populates the
error state and fires both error callbacks. -/
theorem c5_canceled_failures_silent_witness :
    (handleQueryError (ThrownError.axios (some "ERR_NETWORK") none "timeout")).errorMessage =
        some (axiosMessage none "timeout") ∧
    (handleQueryError (ThrownError.axios (some "ERR_NETWORK") none "timeout")).localOnError = true ∧
    (handleQueryError (ThrownError.axios (some "ERR_NETWORK") none "timeout")).globalOnError = true :=
  c5_canceled_failures_silent.2 (some "ERR_NETWORK") none "timeout" (by decide)

/-- C6: a schema failure whose first failing field carries one message
stores `errorMessage` as that message followed by a period, with the
suffix `" (and N more errors)"` appended exactly when further fields
failed, `N` counting the remaining failing fields; a failure on two
fields yields `"<first field message>. (and 1 more errors)"`. -/
theorem c6_zod_error_message_format :
    (∀ (k1 m1 : String) (rest : List (String × List String)),
        (handleQueryError (ThrownError.zod ((k1, [m1]) :: rest))).errorMessage =
          some (m1 ++ "." ++
            (if 0 < rest.length then
              " (and " ++ toString rest.length ++ " more errors)" else ""))) ∧
    zodErrorMessage [("a", ["msg A"]), ("b", ["msg B"])] = "msg A. (and 1 more errors)" := by
  constructor
  · intro k1 m1 rest
    simp only [handleQueryError, Option.some_inj]
    show zodErrorMessage ((k1, [m1]) :: rest) = _
    unfold zodErrorMessage
    have hone : String.intercalate "," [m1] = m1 := rfl
    rcases Nat.eq_zero_or_pos rest.length with hl | hl
    · simp [hl, hone]
    · have h1 : 1 < ((k1, [m1]) :: rest).length := by simp; omega
      simp [hl, h1, hone]
  · rfl

/-- Witness for C6: the two-field schema failure evaluated concretely. -/
theorem c6_zod_error_message_format_witness :
    (handleQueryError (ThrownError.zod [("a", ["msg A"]), ("b", ["msg B"])])).errorMessage =
      some "msg A. (and 1 more errors)" :=
  c6_zod_error_message_format.1 "a" "msg A" [("b", ["msg B"])]

/-- Witness for C7: the encoder output at the failing input does not
depend on the configured boolean style. -/
theorem c7_multipart_boolean_style_ignored_witness :
    mutateMultipartBody multipartNumericDef [("flag", JSVal.bool true)] =
      mutateMultipartBody multipartDemoDef [("flag", JSVal.bool true)] :=
  c7_multipart_boolean_style_ignored.2.2.2 multipartNumericDef multipartDemoDef
    [("flag", JSVal.bool true)]

/-- C8 counterexample: a query hook created with no `params` and no
`data` registers no `onBeforeUnmount` handler, so tearing down the
owning scope aborts nothing — the claim asserts the abort happens for
every instance including this one. -/
theorem c8_no_teardown_counterexample :
    (createQueryHookInstance none).unmountHandlerRegistered = false ∧
    (scopeTeardownEffect none).inFlightAborted = false ∧
    ¬ (scopeTeardownEffect none).inFlightAborted = true ∧
    (scopeTeardownEffect (some emptyOptsDemo)).inFlightAborted = false := by
  refine ⟨rfl, rfl, ?_, rfl⟩
  decide

/-- C8 (amended): the watcher and the `onBeforeUnmount` teardown
handler are registered exactly when the hook invocation carried truthy
`params` or `data`; for those instances teardown stops the watcher and
aborts any in-flight request, and for all other instances it does
neither. -/
theorem c8_teardown_gated_on_reactive_inputs :
    (∀ opts, (createQueryHookInstance opts).unmountHandlerRegistered =
        hookHasReactiveInputs opts) ∧
    (∀ opts, (createQueryHookInstance opts).watcherRegistered =
        hookHasReactiveInputs opts) ∧
    (∀ opts, hookHasReactiveInputs opts = true →
        scopeTeardownEffect opts =
          { watcherStopped := true, inFlightAborted := true }) ∧
    (∀ opts, hookHasReactiveInputs opts = false →
        scopeTeardownEffect opts =
          { watcherStopped := false, inFlightAborted := false }) := by
  refine ⟨fun _ => rfl, fun _ => rfl, ?_, ?_⟩
  · intro opts h
    simp [scopeTeardownEffect, createQueryHookInstance, h]
  · intro opts h
    simp [scopeTeardownEffect, createQueryHookInstance, h]

/-- Witness for the amended C8: an invocation with truthy `params` does
get its watcher stopped and its request aborted at teardown. -/
theorem c8_teardown_gated_witness :
    scopeTeardownEffect (some reactiveOptsDemo) =
      { watcherStopped := true, inFlightAborted := true } :=
  c8_teardown_gated_on_reactive_inputs.2.2.1 (some reactiveOptsDemo) (by rfl)

/-- A `typeof obj.key === 'string'` test succeeds exactly when the
property holds a string. -/
theorem lookupIsStr_iff (fields : List (String × DefVal)) (key : String) :
    lookupIsStr fields key = true ↔
      ∃ p, jsLookupField fields key = some (DefVal.str p) := by
  unfold lookupIsStr
  cases hl : jsLookupField fields key with
  | none => simp
  | some w => cases w <;> simp

/-- C9: a definition-tree value is classified as an endpoint leaf
exactly when it is an object with a string-typed `path` property (for
mutations additionally a string `method`): such a value becomes a hook
leaf, closed over unexpanded, in both the query and the mutation walk;
any other value never yields a leaf (it is skipped or recursed into as
a sub-tree); `deepMerge` assigns any object having a `path` property
wholesale instead of merging into it; and consequently a grouping map
containing a key literally named `path` with a string value is treated
as a leaf and never recursed into, both during hook-tree construction
and during definition merging. -/
theorem c9_leaf_detection :
    (∀ fields, isApiQueryD (DefVal.obj fields) = true ↔
        ∃ p, jsLookupField fields "path" = some (DefVal.str p)) ∧
    (∀ fields, isApiMutationD (DefVal.obj fields) = true ↔
        (∃ p, jsLookupField fields "path" = some (DefVal.str p)) ∧
        (∃ m, jsLookupField fields "method" = some (DefVal.str m))) ∧
    (∀ v, (∀ fields, ¬ v = DefVal.obj fields) →
        isApiQueryD v = false ∧ isApiMutationD v = false) ∧
    (∀ (k : String) (v : DefVal) (rest : List (String × DefVal)),
        isApiQueryD v = true →
        queryHookChildren ((k, v) :: rest) =
          (k, HookTree.leaf v) :: queryHookChildren rest) ∧
    (∀ (k : String) (v : DefVal) (rest : List (String × DefVal)),
        isApiMutationD v = true →
        mutationHookChildren ((k, v) :: rest) =
          (k, HookTree.leaf v) :: mutationHookChildren rest) ∧
    (∀ (k : String) (v : DefVal) (rest : List (String × DefVal)),
        isApiQueryD v = false →
        queryHookChildren ((k, v) :: rest) = queryHookChildren rest ∨
        queryHookChildren ((k, v) :: rest) =
          (k, HookTree.node (queryHookChildren (childFieldsD v))) ::
            queryHookChildren rest) ∧
    (∀ (k : String) (fields : List (String × DefVal)) (rest : List (String × DefVal)),
        isApiMutationD (DefVal.obj fields) = false →
        mutationHookChildren ((k, DefVal.obj fields) :: rest) =
          (k, HookTree.node (mutationHookChildren fields)) ::
            mutationHookChildren rest) ∧
    (∀ fields p, jsLookupField fields "path" = some (DefVal.str p) →
        isMergeNested (DefVal.obj fields) = false) ∧
    (∀ (res : List (String × DefVal)) (k : String)
        (fields rest : List (String × DefVal)) (p : String),
        jsLookupField fields "path" = some (DefVal.str p) →
        mergeInto res ((k, DefVal.obj fields) :: rest) =
          mergeInto (upsertField res k (DefVal.obj fields)) rest) ∧
    queryHookChildren [("g", groupWithPathKey)] =
      [("g", HookTree.leaf groupWithPathKey)] ∧
    deepMergeAll [[("g", groupWithPathKey)], [("g", otherLeafDemo)]] =
      [("g", otherLeafDemo)] := by
  refine ⟨?_, ?_, ?_, ?_, ?_, ?_, ?_, ?_, ?_, ?_, ?_⟩
  · intro fields
    simpa [isApiQueryD] using lookupIsStr_iff fields "path"
  · intro fields
    simp only [isApiMutationD, Bool.and_eq_true]
    exact and_congr (lookupIsStr_iff fields "path") (lookupIsStr_iff fields "method")
  · intro v h
    cases v with
    | obj fields => exact absurd rfl (h fields)
    | str s => exact ⟨rfl, rfl⟩
    | num n => exact ⟨rfl, rfl⟩
    | bool b => exact ⟨rfl, rfl⟩
    | null => exact ⟨rfl, rfl⟩
    | undef => exact ⟨rfl, rfl⟩
    | arrLike => exact ⟨rfl, rfl⟩
  · intro k v rest h
    cases v with
    | obj fields => simp [queryHookChildren, defTruthy, h]
    | str s => exact absurd h (by simp [isApiQueryD])
    | num n => exact absurd h (by simp [isApiQueryD])
    | bool b => exact absurd h (by simp [isApiQueryD])
    | null => exact absurd h (by simp [isApiQueryD])
    | undef => exact absurd h (by simp [isApiQueryD])
    | arrLike => exact absurd h (by simp [isApiQueryD])
  · intro k v rest h
    cases v with
    | obj fields => simp [mutationHookChildren, defTruthy, h]
    | str s => exact absurd h (by simp [isApiMutationD])
    | num n => exact absurd h (by simp [isApiMutationD])
    | bool b => exact absurd h (by simp [isApiMutationD])
    | null => exact absurd h (by simp [isApiMutationD])
    | undef => exact absurd h (by simp [isApiMutationD])
    | arrLike => exact absurd h (by simp [isApiMutationD])
  · intro k v rest h
    cases v with
    | obj fields =>
      right
      simp [queryHookChildren, defTruthy, h, childFieldsD]
    | arrLike =>
      right
      simp [queryHookChildren, defTruthy, h, childFieldsD]
    | str s =>
      left
      simp only [queryHookChildren]
      by_cases hd : defTruthy (DefVal.str s) = false
      · simp [hd]
      · simp [hd, isApiQueryD]
    | num n =>
      left
      simp only [queryHookChildren]
      by_cases hd : defTruthy (DefVal.num n) = false
      · simp [hd]
      · simp [hd, isApiQueryD]
    | bool b =>
      left
      simp only [queryHookChildren]
      by_cases hd : defTruthy (DefVal.bool b) = false
      · simp [hd]
      · simp [hd, isApiQueryD]
    | null => left; simp [queryHookChildren, defTruthy]
    | undef => left; simp [queryHookChildren, defTruthy]
  · intro k fields rest h
    simp [mutationHookChildren, defTruthy, h]
  · intro fields p h
    simp [isMergeNested, h]
  · intro res k fields rest p h
    simp [mergeInto, h]
  · simp [queryHookChildren, groupWithPathKey, leafDemo, defTruthy,
          isApiQueryD, lookupIsStr, jsLookupField]
  · simp [deepMergeAll, mergeInto, groupWithPathKey, otherLeafDemo, leafDemo,
          jsLookupField, upsertField]

/-- Witness for C9: the leaf-production step applied at a concrete
definition leaf. -/
theorem c9_leaf_detection_witness :
    queryHookChildren [("me", leafDemo)] = [("me", HookTree.leaf leafDemo)] := by
  rw [c9_leaf_detection.2.2.2.1 "me" leafDemo [] (by rfl)]
  simp [queryHookChildren]

end VueApiKit
